import Mathlib

/-!
Shallow embedding of the room-based chat relay server (`src/server.js`).

The server keeps three global JavaScript `Map`s:
  * `users`    : socket id → user session `{id, username, room, socketId}`
  * `rooms`    : room name → `Set` of member socket ids
  * `messages` : room name → array of messages
and registers four socket.io handlers: `join`, `chatMessage`, `typing`,
`disconnect`.  We model JS strings as `List Char`, JS `Map`s as association
lists (insertion ordered, `set` replaces in place), JS `Set`s as duplicate-free
lists, and uuid/clock generation as counters threaded through the state.
socket.io room membership (`socket.join`, `socket.to`, `io.to`) is modelled by
a separate map `sio`; socket.io removes a disconnecting socket from all of its
rooms before the `disconnect` handler runs, and never otherwise (the server
never calls `socket.leave`).

Each handler is a total function `ServerState → args → ServerState × List
Delivery`, where a delivery is a `(recipient socket id, event)` pair; the
`try/catch` blocks of the server become explicit branches (the only reachable
throw is `messages.get(room).push` on an absent room log in `chatMessage`).
-/

/-- JS strings, modelled by their character lists. -/
abbrev Str := List Char

/-- Socket identifiers (assigned by the transport). -/
abbrev SocketId := Nat

/-- `s.trim()`: drop whitespace from both ends. -/
def jsTrim (s : Str) : Str :=
  ((s.dropWhile Char.isWhitespace).reverse.dropWhile Char.isWhitespace).reverse

/-- A JS string field is falsy when it is absent (`undefined`) or empty. -/
def falsyStr : Option Str → Bool
  | none => true
  | some s => s.isEmpty

/-- Lookup in a JS `Map` modelled as an association list. -/
def mapGet {α β : Type} [DecidableEq α] : List (α × β) → α → Option β
  | [], _ => none
  | (k', v') :: rest, k => if k' = k then some v' else mapGet rest k

/-- `Map.set`: replace in place when the key is present, append otherwise. -/
def mapSet {α β : Type} [DecidableEq α] : List (α × β) → α → β → List (α × β)
  | [], k, v => [(k, v)]
  | (k', v') :: rest, k, v =>
      if k' = k then (k, v) :: rest else (k', v') :: mapSet rest k v

/-- `Map.delete`: remove every entry with the key (keys are unique anyway). -/
def mapDelete {α β : Type} [DecidableEq α] : List (α × β) → α → List (α × β)
  | [], _ => []
  | (k', v') :: rest, k =>
      if k' = k then mapDelete rest k else (k', v') :: mapDelete rest k

/-- `Set.add` on a duplicate-free member list: append when absent. -/
def setAdd (l : List SocketId) (x : SocketId) : List SocketId :=
  if x ∈ l then l else l ++ [x]

/-- `Set.delete`: remove the element. -/
def setDelete (l : List SocketId) (x : SocketId) : List SocketId :=
  l.filter (fun y => y ≠ x)

/-- Message kind: the server tags each message `'system'` or `'message'`. -/
inductive MsgType : Type
  | system
  | message
deriving DecidableEq, Repr

/-- The `user` field of a message: `{id, username}`.  The reserved system
author `{username:'System', id:'system'}` is modelled with `id = none`. -/
structure Author : Type where
  id : Option Nat
  username : Str
deriving DecidableEq, Repr

/-- A chat or system message as the server constructs it. -/
structure Message : Type where
  id : Nat
  user : Author
  text : Str
  timestamp : Nat
  type : MsgType
deriving DecidableEq, Repr

/-- A user session as stored in the `users` map. -/
structure User : Type where
  id : Nat
  username : Str
  room : Str
  socketId : SocketId
deriving DecidableEq, Repr

/-- Outbound events emitted by the handlers. -/
inductive Event : Type
  | error (msg : Str)
  | joined (user : User) (room : Str) (msgs : List Message)
      (userList : List (Option User))
  | userJoined (user : User) (msg : Message)
  | newMessage (msg : Message)
  | userTyping (userId : Nat) (username : Str) (isTyping : Bool)
  | userLeft (userId : Nat) (username : Str) (msg : Message)
deriving DecidableEq, Repr

/-- A delivery: an event handed to the transport for one recipient socket. -/
abbrev Delivery := SocketId × Event

/-- The server's global mutable state, plus a uuid counter and clock. -/
structure ServerState : Type where
  users : List (SocketId × User)
  rooms : List (Str × List SocketId)
  messages : List (Str × List Message)
  sio : List (Str × List SocketId)
  nextUuid : Nat
  clock : Nat
deriving DecidableEq, Repr

/-- The state at process start: all maps empty. -/
def initialState : ServerState := ⟨[], [], [], [], 0, 0⟩

/-- The room's message log (`messages.get(room)`, empty when absent). -/
def logOf (s : ServerState) (r : Str) : List Message :=
  (mapGet s.messages r).getD []

/-- The room's member set per the `rooms` directory. -/
def roomMembers (s : ServerState) (r : Str) : List SocketId :=
  (mapGet s.rooms r).getD []

/-- The sockets currently joined to the socket.io room `r`. -/
def sioMembers (s : ServerState) (r : Str) : List SocketId :=
  (mapGet s.sio r).getD []

/-- `socket.to(room).emit(e)`: deliver to every socket in the socket.io room
except the sender. -/
def toExceptSelf (s : ServerState) (sid : SocketId) (r : Str) (e : Event) :
    List Delivery :=
  ((sioMembers s r).filter (fun x => x ≠ sid)).map (fun x => (x, e))

/-- `io.to(room).emit(e)`: deliver to every socket in the socket.io room. -/
def toAll (s : ServerState) (r : Str) (e : Event) : List Delivery :=
  (sioMembers s r).map (fun x => (x, e))

/-- The reserved system author. -/
def sysAuthor : Author := ⟨none, "System".toList⟩

/-- The system welcome message built by the `join` handler (its uuid is the
second one drawn during the join). -/
def mkWelcome (s : ServerState) (u : Str) : Message :=
  ⟨s.nextUuid + 1, sysAuthor, u ++ " has joined the room".toList, s.clock,
    .system⟩

/-- The chat message built by the `chatMessage` handler. -/
def mkChatMessage (s : ServerState) (user : User) (m : Str) : Message :=
  ⟨s.nextUuid, ⟨some user.id, user.username⟩, jsTrim m, s.clock, .message⟩

/-- The system leave message built by the `disconnect` handler. -/
def mkLeave (s : ServerState) (user : User) : Message :=
  ⟨s.nextUuid, sysAuthor, user.username ++ " has left the room".toList,
    s.clock, .system⟩

/-- The `join` handler (`socket.on('join', ...)`, server.js lines 38–105). -/
def joinStep (s : ServerState) (sid : SocketId) (username room : Option Str) :
    ServerState × List Delivery :=
  if falsyStr username || falsyStr room then
    (s, [(sid, .error "Username and room are required".toList)])
  else
    let u := username.getD []
    let r := room.getD []
    if 20 < u.length then
      (s, [(sid, .error "Username too long (max 20 chars)".toList)])
    else
      let user : User := ⟨s.nextUuid, u, r, sid⟩
      let users1 := mapSet s.users sid user
      let rooms1 := match mapGet s.rooms r with
        | none => mapSet s.rooms r []
        | some _ => s.rooms
      let rooms2 := mapSet rooms1 r (setAdd ((mapGet rooms1 r).getD []) sid)
      let msgs1 := match mapGet s.messages r with
        | none => mapSet s.messages r []
        | some _ => s.messages
      let sio1 := mapSet s.sio r (setAdd ((mapGet s.sio r).getD []) sid)
      let welcome := mkWelcome s u
      let msgs2 := mapSet msgs1 r (((mapGet msgs1 r).getD []) ++ [welcome])
      let s1 : ServerState := ⟨users1, rooms2, msgs2, sio1, s.nextUuid + 2,
        s.clock + 1⟩
      let snapshot := Event.joined user r ((mapGet msgs2 r).getD [])
        (((mapGet rooms2 r).getD []).map (fun x => mapGet users1 x))
      (s1, (sid, snapshot) :: toExceptSelf s1 sid r (.userJoined user welcome))

/-- The `chatMessage` handler (server.js lines 108–150).  The branch for an
absent room log is the `catch` path: `messages.get(room).push` throws before
any mutation or broadcast, and the handler reports the generic error. -/
def sendStep (s : ServerState) (sid : SocketId) (message room : Option Str) :
    ServerState × List Delivery :=
  match mapGet s.users sid with
  | none => (s, [(sid, .error "User not found".toList)])
  | some user =>
    if falsyStr message || (jsTrim (message.getD [])).isEmpty then
      (s, [(sid, .error "Message cannot be empty".toList)])
    else
      let m := message.getD []
      if 1000 < m.length then
        (s, [(sid, .error "Message too long (max 1000 chars)".toList)])
      else
        match room with
        | none => (s, [(sid, .error "Failed to send message".toList)])
        | some r =>
          match mapGet s.messages r with
          | none => (s, [(sid, .error "Failed to send message".toList)])
          | some log =>
            let chatMessage := mkChatMessage s user m
            let s1 : ServerState := { s with
              messages := mapSet s.messages r (log ++ [chatMessage]),
              nextUuid := s.nextUuid + 1,
              clock := s.clock + 1 }
            (s1, toAll s1 r (.newMessage chatMessage))

/-- The `typing` handler (server.js lines 153–162): no state change. -/
def typingStep (s : ServerState) (sid : SocketId) (room : Option Str)
    (isTyping : Bool) : ServerState × List Delivery :=
  match mapGet s.users sid with
  | none => (s, [])
  | some user =>
    match room with
    | none => (s, [])
    | some r =>
      (s, toExceptSelf s sid r (.userTyping user.id user.username isTyping))

/-- The `disconnect` handler (server.js lines 165–198).  socket.io removes the
socket from every socket.io room before the handler runs.  The handler has no
`try/catch`; the (unreachable in real traces) throw of
`messages.get(room).push` on an absent log aborts it after the member-set
delete and before `users.delete`. -/
def disconnectStep (s : ServerState) (sid : SocketId) :
    ServerState × List Delivery :=
  let s0 : ServerState := { s with
    sio := s.sio.map (fun p => (p.1, setDelete p.2 sid)) }
  match mapGet s0.users sid with
  | none => (s0, [])
  | some user =>
    let room := user.room
    match mapGet s0.rooms room with
    | none => ({ s0 with users := mapDelete s0.users sid }, [])
    | some roomUsers =>
      if sid ∈ roomUsers then
        let rooms1 := mapSet s0.rooms room (setDelete roomUsers sid)
        match mapGet s0.messages room with
        | none => ({ s0 with rooms := rooms1 }, [])
        | some log =>
          let leaveMessage := mkLeave s0 user
          let s1 : ServerState := { s0 with
            users := mapDelete s0.users sid,
            rooms := rooms1,
            messages := mapSet s0.messages room (log ++ [leaveMessage]),
            nextUuid := s0.nextUuid + 1,
            clock := s0.clock + 1 }
          (s1, toExceptSelf s1 sid room
            (.userLeft user.id user.username leaveMessage))
      else
        ({ s0 with users := mapDelete s0.users sid }, [])

/-- One inbound client operation. -/
inductive Op : Type
  | join (sid : SocketId) (username room : Option Str)
  | send (sid : SocketId) (message room : Option Str)
  | typing (sid : SocketId) (room : Option Str) (isTyping : Bool)
  | disconnect (sid : SocketId)
deriving DecidableEq, Repr

/-- Dispatch one operation to its handler. -/
def step (s : ServerState) : Op → ServerState × List Delivery
  | .join sid u r => joinStep s sid u r
  | .send sid m r => sendStep s sid m r
  | .typing sid r b => typingStep s sid r b
  | .disconnect sid => disconnectStep s sid

/-- Run a sequence of operations, collecting all deliveries in order. -/
def run (s : ServerState) : List Op → ServerState × List Delivery
  | [] => (s, [])
  | op :: ops =>
      let sd := step s op
      let sd' := run sd.1 ops
      (sd'.1, sd.2 ++ sd'.2)

/-! ## Specification-side definitions

`appendedSpec` follows the spec's words: the messages one operation appends to
a given room — a system message for an accepted join and for an effective
disconnect, a chat message for an accepted send, nothing for typing or for a
rejected operation. -/

/-- A join is accepted when both fields are present and non-empty and the
username is at most 20 characters. -/
def joinAccepted (username room : Option Str) : Bool :=
  !(falsyStr username || falsyStr room) && (username.getD []).length ≤ 20

/-- A send is accepted when the connection has a session, the trimmed text is
non-empty, the text is at most 1000 characters, and the target room has a
message log. -/
def sendAccepted (s : ServerState) (sid : SocketId)
    (message room : Option Str) : Bool :=
  (mapGet s.users sid).isSome &&
  !(falsyStr message || (jsTrim (message.getD [])).isEmpty) &&
  (message.getD []).length ≤ 1000 &&
  (room.bind (mapGet s.messages)).isSome

/-- A disconnect is effective for room `r` when the connection has a session
whose room is `r`, the session is a member of `r`, and `r` has a log. -/
def discEffective (s : ServerState) (sid : SocketId) (r : Str) : Bool :=
  match mapGet s.users sid with
  | none => false
  | some user =>
      user.room = r && sid ∈ roomMembers s r && (mapGet s.messages r).isSome

/-- The messages a single operation appends to room `r`, per the spec. -/
def appendedSpec (s : ServerState) (op : Op) (r : Str) : List Message :=
  match op with
  | .join _ username room =>
      if joinAccepted username room ∧ room = some r then
        [mkWelcome s (username.getD [])]
      else []
  | .send sid message room =>
      match mapGet s.users sid with
      | none => []
      | some user =>
          if sendAccepted s sid message room ∧ room = some r then
            [mkChatMessage s user (message.getD [])]
          else []
  | .typing _ _ _ => []
  | .disconnect sid =>
      match mapGet s.users sid with
      | none => []
      | some user => if discEffective s sid r then [mkLeave s user] else []

/-- The messages a whole operation sequence appends to room `r`, in
submission order. -/
def appendedAll (s : ServerState) (ops : List Op) (r : Str) : List Message :=
  match ops with
  | [] => []
  | op :: rest => appendedSpec s op r ++ appendedAll (step s op).1 rest r

/-- Recognize an `error` event. -/
def isErrorEv : Event → Bool
  | .error _ => true
  | _ => false

/-- Recognize a `joined` (room snapshot) event. -/
def isJoinedEv : Event → Bool
  | .joined _ _ _ _ => true
  | _ => false

/-- Recognize a `userLeft` event. -/
def isUserLeftEv : Event → Bool
  | .userLeft _ _ _ => true
  | _ => false

/-- Concrete scenario: `alice` (socket 0) has joined room `"a"` from a fresh
process. -/
def stateA : ServerState :=
  (joinStep initialState 0 (some "alice".toList) (some "a".toList)).1

/-- Concrete scenario: `alice` (socket 0) and `bob` (socket 1) have both
joined room `"a"`. -/
def stateAB : ServerState :=
  (joinStep stateA 1 (some "bob".toList) (some "a".toList)).1

/-- Concrete scenario: `alice` (socket 0) in room `"a"`, `bob` (socket 1) in
room `"b"`. -/
def stateA2 : ServerState :=
  (joinStep stateA 1 (some "bob".toList) (some "b".toList)).1

/-! ## Association-list and set helper lemmas -/

theorem mapGet_set_self {α β : Type} [DecidableEq α] (m : List (α × β))
    (k : α) (v : β) : mapGet (mapSet m k v) k = some v := by
  induction m with
  | nil => simp [mapSet, mapGet]
  | cons p rest ih =>
      by_cases h : p.1 = k
      · simp [mapSet, mapGet, h]
      · simp [mapSet, mapGet, h, ih]

theorem mapGet_set_ne {α β : Type} [DecidableEq α] (m : List (α × β))
    (k k' : α) (v : β) (h : k' ≠ k) :
    mapGet (mapSet m k v) k' = mapGet m k' := by
  induction m with
  | nil => simp [mapSet, mapGet, h, Ne.symm h]
  | cons p rest ih =>
      by_cases hp : p.1 = k
      · simp [mapSet, mapGet, hp, h, Ne.symm h]
      · by_cases hp' : p.1 = k'
        · simp [mapSet, mapGet, hp, hp', h, Ne.symm h]
        · simp [mapSet, mapGet, hp, hp', ih]

theorem mapGet_delete_self {α β : Type} [DecidableEq α] (m : List (α × β))
    (k : α) : mapGet (mapDelete m k) k = none := by
  induction m with
  | nil => simp [mapDelete, mapGet]
  | cons p rest ih =>
      by_cases h : p.1 = k
      · simp [mapDelete, h, ih]
      · simp [mapDelete, mapGet, h, ih]

theorem mapGet_delete_ne {α β : Type} [DecidableEq α] (m : List (α × β))
    (k k' : α) (h : k' ≠ k) :
    mapGet (mapDelete m k) k' = mapGet m k' := by
  induction m with
  | nil => simp [mapDelete]
  | cons p rest ih =>
      by_cases hp : p.1 = k
      · simp [mapDelete, mapGet, hp, Ne.symm h, ih]
      · by_cases hp' : p.1 = k'
        · simp [mapDelete, mapGet, hp, hp', h, Ne.symm h]
        · simp [mapDelete, mapGet, hp, hp', ih]

theorem mapGet_set_isSome {α β : Type} [DecidableEq α] (m : List (α × β))
    (k k' : α) (v : β) (h : (mapGet m k').isSome) :
    (mapGet (mapSet m k v) k').isSome := by
  by_cases hk : k' = k
  · subst hk; simp [mapGet_set_self]
  · rwa [mapGet_set_ne m k k' v hk]

theorem typingStep_state (s : ServerState) (sid : SocketId) (room : Option Str)
    (b : Bool) : (typingStep s sid room b).1 = s := by
  unfold typingStep
  rcases mapGet s.users sid with _ | user
  · rfl
  · cases room <;> rfl

theorem logOf_joinStep (s : ServerState) (sid : SocketId)
    (username room : Option Str) (r : Str) :
    logOf (joinStep s sid username room).1 r
      = logOf s r ++ appendedSpec s (.join sid username room) r := by
  by_cases hf : (falsyStr username || falsyStr room) = true
  · simp [joinStep, appendedSpec, joinAccepted, hf]
  · by_cases hl : 20 < (username.getD []).length
    · simp [joinStep, appendedSpec, joinAccepted, hf, hl, Nat.not_le.mpr hl]
    · obtain ⟨r0, hr0⟩ : ∃ r0, room = some r0 := by
        cases room with
        | none => simp [falsyStr] at hf
        | some x => exact ⟨x, rfl⟩
      subst hr0
      by_cases hr : r0 = r
      · subst hr
        rcases hm : mapGet s.messages r0 with _ | l
        · simp [joinStep, appendedSpec, joinAccepted, hf, hl, Nat.not_lt.mp hl,
            logOf, hm, mapGet_set_self]
        · simp [joinStep, appendedSpec, joinAccepted, hf, hl, Nat.not_lt.mp hl,
            logOf, hm, mapGet_set_self]
      · rcases hm : mapGet s.messages r0 with _ | l
        · simp [joinStep, appendedSpec, joinAccepted, hf, hl, Nat.not_lt.mp hl,
            logOf, hm, hr, mapGet_set_ne _ _ _ _ (Ne.symm hr)]
        · simp [joinStep, appendedSpec, joinAccepted, hf, hl, Nat.not_lt.mp hl,
            logOf, hm, hr, mapGet_set_ne _ _ _ _ (Ne.symm hr)]

theorem logOf_sendStep (s : ServerState) (sid : SocketId)
    (message room : Option Str) (r : Str) :
    logOf (sendStep s sid message room).1 r
      = logOf s r ++ appendedSpec s (.send sid message room) r := by
  rcases hu : mapGet s.users sid with _ | user
  · simp [sendStep, appendedSpec, hu]
  · by_cases he : (falsyStr message || (jsTrim (message.getD [])).isEmpty) = true
    · simp [sendStep, appendedSpec, sendAccepted, hu, he]
    · by_cases hl : 1000 < (message.getD []).length
      · simp [sendStep, appendedSpec, sendAccepted, hu, he, hl, Nat.not_le.mpr hl]
      · cases room with
        | none => simp [sendStep, appendedSpec, sendAccepted, hu, he, hl]
        | some r0 =>
          rcases hm : mapGet s.messages r0 with _ | log
          · simp [sendStep, appendedSpec, sendAccepted, hu, he, hl, hm]
          · by_cases hr : r0 = r
            · subst hr
              simp [sendStep, appendedSpec, sendAccepted, hu, he, hl,
                Nat.not_lt.mp hl, hm, logOf, mapGet_set_self]
            · simp [sendStep, appendedSpec, sendAccepted, hu, he, hl,
                Nat.not_lt.mp hl, hm, logOf, hr,
                mapGet_set_ne _ _ _ _ (Ne.symm hr)]

theorem logOf_disconnectStep (s : ServerState) (sid : SocketId) (r : Str) :
    logOf (disconnectStep s sid).1 r
      = logOf s r ++ appendedSpec s (.disconnect sid) r := by
  rcases hu : mapGet s.users sid with _ | user
  · simp [disconnectStep, appendedSpec, hu, logOf]
  · rcases hrm : mapGet s.rooms user.room with _ | roomUsers
    · by_cases hr : user.room = r
      · subst hr
        simp [disconnectStep, appendedSpec, discEffective, hu, hrm, logOf,
          roomMembers]
      · simp [disconnectStep, appendedSpec, discEffective, hu, hrm, logOf,
          roomMembers, hr]
    · by_cases hmem : sid ∈ roomUsers
      · rcases hm : mapGet s.messages user.room with _ | log
        · by_cases hr : user.room = r
          · subst hr
            simp [disconnectStep, appendedSpec, discEffective, hu, hrm, hmem,
              hm, logOf, roomMembers]
          · simp [disconnectStep, appendedSpec, discEffective, hu, hrm, hmem,
              hm, logOf, roomMembers, hr]
        · by_cases hr : user.room = r
          · subst hr
            simp [disconnectStep, appendedSpec, discEffective, hu, hrm, hmem,
              hm, logOf, roomMembers, mkLeave, mapGet_set_self]
          · simp [disconnectStep, appendedSpec, discEffective, hu, hrm, hmem,
              hm, logOf, roomMembers, hr, mapGet_set_ne _ _ _ _ (Ne.symm hr)]
      · by_cases hr : user.room = r
        · subst hr
          simp [disconnectStep, appendedSpec, discEffective, hu, hrm, hmem,
            logOf, roomMembers]
        · simp [disconnectStep, appendedSpec, discEffective, hu, hrm, hmem,
            logOf, roomMembers, hr]

theorem logOf_step (s : ServerState) (op : Op) (r : Str) :
    logOf (step s op).1 r = logOf s r ++ appendedSpec s op r := by
  cases op with
  | join sid username room => exact logOf_joinStep s sid username room r
  | send sid message room => exact logOf_sendStep s sid message room r
  | typing sid room b => simp [step, typingStep_state, appendedSpec]
  | disconnect sid => exact logOf_disconnectStep s sid r

theorem logOf_run (ops : List Op) (s : ServerState) (r : Str) :
    logOf (run s ops).1 r = logOf s r ++ appendedAll s ops r := by
  induction ops generalizing s with
  | nil => simp [run, appendedAll]
  | cons op rest ih =>
      simp only [run, appendedAll]
      rw [ih (step s op).1, logOf_step, List.append_assoc]

/-- **C1.**  For every sequence of join/send/typing/disconnect operations and
every room, the room's message log after the sequence equals the log before
it, extended by exactly the ordered list of system messages (for accepted
joins and effective disconnects) and chat messages (for accepted sends) that
the operations append, in the order the operations were accepted
(`appendedAll`/`appendedSpec` state that list in the spec's terms); typing
operations and rejected operations contribute nothing.  Instantiated at a
single room this is the single-room ordering property. -/
theorem C1_log_is_ordered_appends (ops : List Op) (s : ServerState) (r : Str) :
    logOf (run s ops).1 r = logOf s r ++ appendedAll s ops r :=
  logOf_run ops s r

theorem rooms_isSome_joinStep (s : ServerState) (sid : SocketId)
    (username room : Option Str) (r : Str)
    (h : (mapGet s.rooms r).isSome) :
    (mapGet (joinStep s sid username room).1.rooms r).isSome := by
  by_cases hf : (falsyStr username || falsyStr room) = true
  · simpa [joinStep, hf] using h
  · by_cases hl : 20 < (username.getD []).length
    · simpa [joinStep, hf, hl] using h
    · rcases hr : mapGet s.rooms (room.getD []) with _ | l
      · simp only [joinStep, hf, hl, if_neg, Bool.not_eq_true] at *
        simp [hf, hl, hr]
        exact mapGet_set_isSome _ _ _ _ (mapGet_set_isSome _ _ _ _ h)
      · simp [joinStep, hf, hl, hr]
        exact mapGet_set_isSome _ _ _ _ h

theorem rooms_isSome_step (s : ServerState) (op : Op) (r : Str)
    (h : (mapGet s.rooms r).isSome) :
    (mapGet (step s op).1.rooms r).isSome := by
  cases op with
  | join sid username room => exact rooms_isSome_joinStep s sid username room r h
  | send sid message room =>
      rcases hu : mapGet s.users sid with _ | user
      · simpa [step, sendStep, hu] using h
      · by_cases he : (falsyStr message || (jsTrim (message.getD [])).isEmpty) = true
        · simpa [step, sendStep, hu, he] using h
        · by_cases hl : 1000 < (message.getD []).length
          · simpa [step, sendStep, hu, he, hl] using h
          · cases room with
            | none => simpa [step, sendStep, hu, he, hl] using h
            | some r0 =>
                rcases hm : mapGet s.messages r0 with _ | log
                · simpa [step, sendStep, hu, he, hl, hm] using h
                · simpa [step, sendStep, hu, he, hl, hm] using h
  | typing sid room b => simpa [step, typingStep_state] using h
  | disconnect sid =>
      rcases hu : mapGet s.users sid with _ | user
      · simpa [step, disconnectStep, hu] using h
      · rcases hrm : mapGet s.rooms user.room with _ | roomUsers
        · simpa [step, disconnectStep, hu, hrm] using h
        · by_cases hmem : sid ∈ roomUsers
          · rcases hm : mapGet s.messages user.room with _ | log
            · simp [step, disconnectStep, hu, hrm, hmem, hm]
              exact mapGet_set_isSome _ _ _ _ h
            · simp [step, disconnectStep, hu, hrm, hmem, hm]
              exact mapGet_set_isSome _ _ _ _ h
          · simpa [step, disconnectStep, hu, hrm, hmem] using h

theorem rooms_isSome_run (s : ServerState) (ops : List Op) (r : Str)
    (h : (mapGet s.rooms r).isSome) :
    (mapGet (run s ops).1.rooms r).isSome := by
  induction ops generalizing s with
  | nil => simpa [run] using h
  | cons op rest ih => exact ih (step s op).1 (rooms_isSome_step s op r h)

/-- **C9.**  Once a room exists in the Room Directory no sequence of
operations ever removes it (room keys are non-decreasing, even when the last
member disconnects), and every room's message log is append-only: after any
sequence the log is the old log extended at the end, so no existing entry is
ever mutated or deleted. -/
theorem C9_rooms_persist_and_logs_append_only (s : ServerState)
    (ops : List Op) (r : Str) :
    ((mapGet s.rooms r).isSome → (mapGet (run s ops).1.rooms r).isSome) ∧
    ∃ t, logOf (run s ops).1 r = logOf s r ++ t :=
  ⟨fun h => rooms_isSome_run s ops r h,
   appendedAll s ops r, logOf_run ops s r⟩

/-- Witness for C9: room `"a"` survives its only member disconnecting, and
the log is only extended. -/
theorem C9_witness :
    (mapGet stateA.rooms "a".toList).isSome = true ∧
    ((mapGet (run stateA [Op.disconnect 0]).1.rooms "a".toList).isSome ∧
     ∃ t, logOf (run stateA [Op.disconnect 0]).1 "a".toList
        = logOf stateA "a".toList ++ t) :=
  ⟨by decide,
   (C9_rooms_persist_and_logs_append_only stateA [Op.disconnect 0]
      "a".toList).1 (by decide),
   (C9_rooms_persist_and_logs_append_only stateA [Op.disconnect 0]
      "a".toList).2⟩

/-- **C2 (code behavior at the failing input).**  A second `join` on a
connection that already has a session is accepted — the deliveries contain no
error and exactly one `joined` snapshot — yet the connection is left in the
member set of its previous room `"a"`: the code neither rejects with
`AlreadyJoined` nor performs a leave-then-join, so stale membership remains.
-/
theorem C2_rejoin_keeps_stale_membership :
    ((joinStep stateA 0 (some "alice".toList)
        (some "b".toList)).2.countP (fun d => isErrorEv d.2) = 0) ∧
    ((joinStep stateA 0 (some "alice".toList)
        (some "b".toList)).2.countP (fun d => isJoinedEv d.2) = 1) ∧
    0 ∈ roomMembers (joinStep stateA 0 (some "alice".toList)
        (some "b".toList)).1 "a".toList := by
  decide

/-- **C3.**  A join whose username or room is absent or empty, or whose
username exceeds 20 characters, fails with an `InvalidInput` error event
delivered only to the originating connection, and mutates no state at all
(the returned state is the input state, so the connection registry, all
member sets and all logs are unchanged). -/
theorem C3_invalid_join_rejected (s : ServerState) (sid : SocketId)
    (username room : Option Str)
    (h : falsyStr username = true ∨ falsyStr room = true ∨
         20 < (username.getD []).length) :
    (joinStep s sid username room).1 = s ∧
    ∃ m, (joinStep s sid username room).2 = [(sid, Event.error m)] := by
  by_cases hf : (falsyStr username || falsyStr room) = true
  · exact ⟨by simp [joinStep, hf],
      "Username and room are required".toList, by simp [joinStep, hf]⟩
  · have hl : 20 < (username.getD []).length := by
      rcases h with h | h | h
      · exact absurd (by simp [h]) hf
      · exact absurd (by simp [h]) hf
      · exact h
    exact ⟨by simp [joinStep, hf, hl],
      "Username too long (max 20 chars)".toList, by simp [joinStep, hf, hl]⟩

/-- Witness for C3: an empty username is rejected with no state change. -/
theorem C3_witness :
    (falsyStr (some ([] : Str)) = true ∨ falsyStr (some "a".toList) = true ∨
      20 < ((some ([] : Str)).getD []).length) ∧
    ((joinStep stateA 1 (some []) (some "a".toList)).1 = stateA ∧
     ∃ m, (joinStep stateA 1 (some []) (some "a".toList)).2
        = [(1, Event.error m)]) :=
  ⟨Or.inl (by decide),
   C3_invalid_join_rejected stateA 1 (some []) (some "a".toList)
     (Or.inl (by decide))⟩

/-- **C10.**  Every failing send — no session (`NotJoined`), invalid text, or
the unexpected internal failure of an absent room log (the server's `catch`
path) — reports a single error event to the originating connection only: it
is never broadcast to any other connection and the entire state (connection
registry, member sets, logs) is unchanged.  The handler is a total function
of the state, so no input crashes the engine. -/
theorem C10_failing_send_isolated (s : ServerState) (sid : SocketId)
    (message room : Option Str)
    (h : ∃ x m, (x, Event.error m) ∈ (sendStep s sid message room).2) :
    (sendStep s sid message room).1 = s ∧
    ∃ m, (sendStep s sid message room).2 = [(sid, Event.error m)] := by
  rcases hu : mapGet s.users sid with _ | user
  · exact ⟨by simp [sendStep, hu], "User not found".toList,
      by simp [sendStep, hu]⟩
  · by_cases he : (falsyStr message || (jsTrim (message.getD [])).isEmpty) = true
    · exact ⟨by simp [sendStep, hu, he], "Message cannot be empty".toList,
        by simp [sendStep, hu, he]⟩
    · by_cases hl : 1000 < (message.getD []).length
      · exact ⟨by simp [sendStep, hu, he, hl],
          "Message too long (max 1000 chars)".toList,
          by simp [sendStep, hu, he, hl]⟩
      · cases room with
        | none =>
            exact ⟨by simp [sendStep, hu, he, hl],
              "Failed to send message".toList, by simp [sendStep, hu, he, hl]⟩
        | some r =>
            rcases hm : mapGet s.messages r with _ | log
            · exact ⟨by simp [sendStep, hu, he, hl, hm],
                "Failed to send message".toList,
                by simp [sendStep, hu, he, hl, hm]⟩
            · exfalso
              simp [sendStep, hu, he, hl, hm, toAll] at h

/-- Witness for C10: a send by a connection with no session is rejected with
an error to that connection only and no state change. -/
theorem C10_witness :
    (∃ x m, (x, Event.error m) ∈ (sendStep stateA 5 (some "hi".toList)
        (some "a".toList)).2) ∧
    ((sendStep stateA 5 (some "hi".toList) (some "a".toList)).1 = stateA ∧
     ∃ m, (sendStep stateA 5 (some "hi".toList) (some "a".toList)).2
        = [(5, Event.error m)]) :=
  ⟨⟨5, "User not found".toList, by decide⟩,
   C10_failing_send_isolated stateA 5 (some "hi".toList) (some "a".toList)
     ⟨5, "User not found".toList, by decide⟩⟩

theorem falsy_imp_trim_empty (message : Option Str)
    (h : falsyStr message = true) :
    (jsTrim (message.getD [])).isEmpty = true := by
  cases message with
  | none => decide
  | some s =>
      have : s = [] := by
        cases s with
        | nil => rfl
        | cons a t => simp [falsyStr] at h
      subst this; decide

/-- **C4 (counterexample to the claim as stated).**  With `alice` joined to
room `"a"`:  (i) a text of 1001 whitespace characters exceeds 1000 characters
yet fails with the empty-message error, not `TooLong` — the trimmed-empty
check runs first; (ii) a valid text of length exactly 1000 sent to room `"b"`
(which has no message log) does not succeed: it fails with the generic
internal error and no state is mutated. -/
theorem C4_counterexample :
    ((sendStep stateA 0 (some (List.replicate 1001 ' ')) (some "a".toList)).2
        = [(0, Event.error "Message cannot be empty".toList)]) ∧
    (1000 < (List.replicate 1001 ' ' : Str).length) ∧
    ((sendStep stateA 0 (some (List.replicate 1000 'x')) (some "b".toList)).2
        = [(0, Event.error "Failed to send message".toList)]) ∧
    ((sendStep stateA 0 (some (List.replicate 1000 'x')) (some "b".toList)).1
        = stateA) := by
  set_option maxRecDepth 100000 in decide

/-- **C4 (amended).**  For a send by a joined connection the validation
checks trimmed-emptiness first: the send fails with the `InvalidMessage`
error exactly when the trimmed text is empty (even if the text also exceeds
1000 characters), fails with `TooLong` exactly when the trimmed text is
non-empty and the raw text exceeds 1000 characters, and mutates no state in
either case; a text whose trimmed form is non-empty and whose length is at
most 1000 (in particular exactly 1000), sent to a room whose message log
exists, succeeds: the chat message is appended to that log and broadcast,
while the same text sent to a room with no log fails with the generic
internal error. -/
theorem C4_amended_send_validation (s : ServerState) (sid : SocketId)
    (message : Option Str) (r : Str) (user : User)
    (hu : mapGet s.users sid = some user) :
    ((jsTrim (message.getD [])).isEmpty = true →
      sendStep s sid message (some r)
        = (s, [(sid, Event.error "Message cannot be empty".toList)])) ∧
    ((jsTrim (message.getD [])).isEmpty = false →
      1000 < (message.getD []).length →
      sendStep s sid message (some r)
        = (s, [(sid, Event.error "Message too long (max 1000 chars)".toList)])) ∧
    ((jsTrim (message.getD [])).isEmpty = false →
      (message.getD []).length ≤ 1000 →
      mapGet s.messages r = none →
      sendStep s sid message (some r)
        = (s, [(sid, Event.error "Failed to send message".toList)])) ∧
    ((jsTrim (message.getD [])).isEmpty = false →
      (message.getD []).length ≤ 1000 →
      ∀ log, mapGet s.messages r = some log →
      (sendStep s sid message (some r)).1.messages
          = mapSet s.messages r (log ++ [mkChatMessage s user (message.getD [])]) ∧
      (sendStep s sid message (some r)).2
          = toAll s r (Event.newMessage (mkChatMessage s user (message.getD [])))) := by
  refine ⟨?_, ?_, ?_, ?_⟩
  · intro ht
    simp [sendStep, hu, ht]
  · intro ht hl
    have hfa : falsyStr message = false := by
      cases hfa : falsyStr message
      · rfl
      · exact absurd (falsy_imp_trim_empty message hfa) (by simp [ht])
    simp [sendStep, hu, ht, hfa, hl]
  · intro ht hl hm
    have hfa : falsyStr message = false := by
      cases hfa : falsyStr message
      · rfl
      · exact absurd (falsy_imp_trim_empty message hfa) (by simp [ht])
    simp [sendStep, hu, ht, hfa, Nat.not_lt.mpr hl, hm]
  · intro ht hl log hm
    have hfa : falsyStr message = false := by
      cases hfa : falsyStr message
      · rfl
      · exact absurd (falsy_imp_trim_empty message hfa) (by simp [ht])
    constructor
    · simp [sendStep, hu, ht, hfa, Nat.not_lt.mpr hl, hm]
    · simp [sendStep, hu, ht, hfa, Nat.not_lt.mpr hl, hm, toAll, sioMembers]

set_option maxRecDepth 1000000 in
/-- Witness for C4 (amended): a text of length exactly 1000 sent by a joined
connection to its room, whose log exists, is appended and broadcast. -/
theorem C4_witness :
    (mapGet stateA.users 0 = some ⟨0, "alice".toList, "a".toList, 0⟩) ∧
    ((jsTrim ((some (List.replicate 1000 'x') : Option Str).getD [])).isEmpty
        = false) ∧
    (((some (List.replicate 1000 'x') : Option Str).getD []).length ≤ 1000) ∧
    ((sendStep stateA 0 (some (List.replicate 1000 'x'))
        (some "a".toList)).1.messages
      = mapSet stateA.messages "a".toList
          ((mapGet stateA.messages "a".toList).getD []
            ++ [mkChatMessage stateA ⟨0, "alice".toList, "a".toList, 0⟩
                  (List.replicate 1000 'x')]) ∧
     (sendStep stateA 0 (some (List.replicate 1000 'x'))
        (some "a".toList)).2
      = toAll stateA "a".toList
          (Event.newMessage (mkChatMessage stateA
            ⟨0, "alice".toList, "a".toList, 0⟩ (List.replicate 1000 'x')))) :=
  ⟨by decide, by decide, by decide,
   (C4_amended_send_validation stateA 0 (some (List.replicate 1000 'x'))
      "a".toList ⟨0, "alice".toList, "a".toList, 0⟩ (by decide)).2.2.2
     (by decide) (by decide)
     ((mapGet stateA.messages "a".toList).getD []) (by decide)⟩

/-- **C5 (counterexample to the claim as stated).**  `alice` (socket 0,
joined room `"a"`) sends to room `"b"` (created by `bob`, socket 1).  The
send succeeds — the chat message is appended to `"b"`'s log — but the
deliveries go to `bob` only: the sender receives the message zero times, not
exactly once, because the server trusts the client-supplied room name. -/
theorem C5_counterexample :
    (logOf (sendStep stateA2 0 (some "hi".toList) (some "b".toList)).1
        "b".toList
      = logOf stateA2 "b".toList
          ++ [mkChatMessage stateA2 ⟨0, "alice".toList, "a".toList, 0⟩
                "hi".toList]) ∧
    ((sendStep stateA2 0 (some "hi".toList) (some "b".toList)).2.countP
        (fun d => d.1 == 0) = 0) ∧
    ((sendStep stateA2 0 (some "hi".toList) (some "b".toList)).2.countP
        (fun _ => true) = 1) := by
  decide

/-- **C5 (amended).**  Every successful send broadcasts the new chat message
to exactly the sockets currently joined to the target room's channel, one
delivery per member; when the sender is among them — in particular whenever
the target room is the sender's own room, as the caller contract requires —
the sender receives the message exactly once (self-echo). -/
theorem C5_amended_broadcast_self_echo (s : ServerState) (sid : SocketId)
    (message : Option Str) (r : Str) (user : User)
    (hu : mapGet s.users sid = some user)
    (ht : (jsTrim (message.getD [])).isEmpty = false)
    (hl : (message.getD []).length ≤ 1000)
    (log : List Message) (hm : mapGet s.messages r = some log) :
    (sendStep s sid message (some r)).2
      = (sioMembers s r).map (fun x =>
          (x, Event.newMessage (mkChatMessage s user (message.getD [])))) ∧
    ((sioMembers s r).Nodup → sid ∈ sioMembers s r →
      ((sendStep s sid message (some r)).2.map Prod.fst).count sid = 1) := by
  have hfa : falsyStr message = false := by
    cases hfa : falsyStr message
    · rfl
    · exact absurd (falsy_imp_trim_empty message hfa) (by simp [ht])
  have hds : (sendStep s sid message (some r)).2
      = (sioMembers s r).map (fun x =>
          (x, Event.newMessage (mkChatMessage s user (message.getD [])))) := by
    simp [sendStep, hu, ht, hfa, Nat.not_lt.mpr hl, hm, toAll, sioMembers]
  refine ⟨hds, fun hnd hmem => ?_⟩
  rw [hds, List.map_map]
  have hid : (Prod.fst ∘ fun x : SocketId =>
      (x, Event.newMessage (mkChatMessage s user (message.getD []))))
      = fun x => x := rfl
  rw [hid, List.map_id_fun']
  exact List.count_eq_one_of_mem hnd hmem

/-- Witness for C5 (amended): `alice` sends `"hi"` to her own room `"a"`
where both `alice` and `bob` are members; both receive it, and `alice`
exactly once. -/
theorem C5_witness :
    (mapGet stateAB.users 0 = some ⟨0, "alice".toList, "a".toList, 0⟩) ∧
    ((jsTrim "hi".toList).isEmpty = false) ∧
    ((sioMembers stateAB "a".toList).Nodup ∧ 0 ∈ sioMembers stateAB "a".toList) ∧
    ((sendStep stateAB 0 (some "hi".toList) (some "a".toList)).2
        = (sioMembers stateAB "a".toList).map (fun x =>
            (x, Event.newMessage (mkChatMessage stateAB
              ⟨0, "alice".toList, "a".toList, 0⟩ "hi".toList))) ∧
     ((sendStep stateAB 0 (some "hi".toList)
        (some "a".toList)).2.map Prod.fst).count 0 = 1) :=
  ⟨by decide, by decide, ⟨by decide, by decide⟩,
   (C5_amended_broadcast_self_echo stateAB 0 (some "hi".toList) "a".toList
      ⟨0, "alice".toList, "a".toList, 0⟩ (by decide) (by decide) (by decide)
      ((mapGet stateAB.messages "a".toList).getD []) (by decide)).1,
   (C5_amended_broadcast_self_echo stateAB 0 (some "hi".toList) "a".toList
      ⟨0, "alice".toList, "a".toList, 0⟩ (by decide) (by decide) (by decide)
      ((mapGet stateAB.messages "a".toList).getD []) (by decide)).2
     (by decide) (by decide)⟩

theorem setDelete_idem (l : List SocketId) (x : SocketId) :
    setDelete (setDelete l x) x = setDelete l x := by
  simp [setDelete, List.filter_filter]

theorem sioErase_idem (m : List (Str × List SocketId)) (sid : SocketId) :
    (m.map (fun p => (p.1, setDelete p.2 sid))).map
        (fun p => (p.1, setDelete p.2 sid))
      = m.map (fun p => (p.1, setDelete p.2 sid)) := by
  induction m with
  | nil => rfl
  | cons p rest ih => simp [setDelete_idem, ih]

/-- **C6.**  disconnect is idempotent: for a connection with a session that
is a member of its room (with a log, as every reachable state has), the first
disconnect appends exactly one system leave message to the room's log and
produces exactly one `userLeft` broadcast (one delivery per remaining member
of the socket.io room); the second disconnect returns the state completely
unchanged and delivers nothing, so disconnecting twice has the same total
effect as disconnecting once. -/
theorem C6_disconnect_idempotent (s : ServerState) (sid : SocketId)
    (user : User) (hu : mapGet s.users sid = some user)
    (hmem : sid ∈ roomMembers s user.room)
    (hm : (mapGet s.messages user.room).isSome) :
    logOf (disconnectStep s sid).1 user.room
      = logOf s user.room ++ [mkLeave s user] ∧
    (disconnectStep s sid).2
      = toExceptSelf (disconnectStep s sid).1 sid user.room
          (Event.userLeft user.id user.username (mkLeave s user)) ∧
    disconnectStep (disconnectStep s sid).1 sid
      = ((disconnectStep s sid).1, []) := by
  rcases hro : mapGet s.rooms user.room with _ | roomUsers
  · simp [roomMembers, hro] at hmem
  · rcases hmo : mapGet s.messages user.room with _ | log
    · simp [hmo] at hm
    · have hmem' : sid ∈ roomUsers := by simpa [roomMembers, hro] using hmem
      have hstep : disconnectStep s sid
          = (⟨mapDelete s.users sid,
              mapSet s.rooms user.room (setDelete roomUsers sid),
              mapSet s.messages user.room (log ++ [mkLeave s user]),
              s.sio.map (fun p => (p.1, setDelete p.2 sid)),
              s.nextUuid + 1, s.clock + 1⟩,
             toExceptSelf ⟨mapDelete s.users sid,
              mapSet s.rooms user.room (setDelete roomUsers sid),
              mapSet s.messages user.room (log ++ [mkLeave s user]),
              s.sio.map (fun p => (p.1, setDelete p.2 sid)),
              s.nextUuid + 1, s.clock + 1⟩ sid user.room
               (Event.userLeft user.id user.username (mkLeave s user))) := by
        simp [disconnectStep, hu, hro, hmem', hmo, mkLeave]
      refine ⟨?_, ?_, ?_⟩
      · rw [hstep]
        simp [logOf, hmo, mapGet_set_self]
      · rw [hstep]
      · rw [hstep]
        simp only [disconnectStep, sioErase_idem, mapGet_delete_self]

/-- Witness for C6: `bob` disconnects from room `"a"` (where `alice`
remains); one leave message is appended, one `userLeft` broadcast goes to the
remaining member, and a second disconnect is a complete no-op. -/
theorem C6_witness :
    (mapGet stateAB.users 1 = some ⟨2, "bob".toList, "a".toList, 1⟩) ∧
    (1 ∈ roomMembers stateAB "a".toList ∧
     (mapGet stateAB.messages "a".toList).isSome = true) ∧
    (logOf (disconnectStep stateAB 1).1 "a".toList
        = logOf stateAB "a".toList
            ++ [mkLeave stateAB ⟨2, "bob".toList, "a".toList, 1⟩] ∧
     (disconnectStep stateAB 1).2
        = toExceptSelf (disconnectStep stateAB 1).1 1 "a".toList
            (Event.userLeft 2 "bob".toList
              (mkLeave stateAB ⟨2, "bob".toList, "a".toList, 1⟩)) ∧
     disconnectStep (disconnectStep stateAB 1).1 1
        = ((disconnectStep stateAB 1).1, [])) :=
  ⟨by decide, ⟨by decide, by decide⟩,
   C6_disconnect_idempotent stateAB 1 ⟨2, "bob".toList, "a".toList, 1⟩
     (by decide) (by decide) (by decide)⟩

theorem filter_setAdd (l : List SocketId) (x : SocketId)
    (p : SocketId → Bool) (hp : p x = false) :
    (setAdd l x).filter p = l.filter p := by
  by_cases h : x ∈ l <;> simp [setAdd, h, List.filter_append, hp]

/-- **C7.**  For every successful join (in a state where the socket.io
membership of the room agrees with the Room Directory, as it does on every
bug-free trace), the deliveries are exactly: one `joined` snapshot to the
joining connection carrying the complete message log (including the new
system message) and the complete member list of the room, followed by one
`userJoined` event (the new user and the system message) to every other
member of the room.  Consequently the snapshot goes only to the joiner, and
the joiner never receives a `userJoined` echo. -/
theorem C7_join_snapshot_and_userJoined (s : ServerState) (sid : SocketId)
    (u r : Str) (hne : u ≠ []) (hre : r ≠ []) (hlen : u.length ≤ 20)
    (hcons : mapGet s.sio r = mapGet s.rooms r) :
    ((joinStep s sid (some u) (some r)).2
      = (sid, Event.joined ⟨s.nextUuid, u, r, sid⟩ r
            (logOf s r ++ [mkWelcome s u])
            ((setAdd (roomMembers s r) sid).map
              (fun x => mapGet (mapSet s.users sid ⟨s.nextUuid, u, r, sid⟩) x)))
        :: ((roomMembers s r).filter (fun x => x ≠ sid)).map
             (fun x => (x, Event.userJoined ⟨s.nextUuid, u, r, sid⟩
                (mkWelcome s u)))) ∧
    (∀ x e, (x, e) ∈ (joinStep s sid (some u) (some r)).2 →
        isJoinedEv e = true → x = sid) ∧
    (∀ w m, (sid, Event.userJoined w m) ∉ (joinStep s sid (some u) (some r)).2)
    := by
  have hfa : falsyStr (some u) = false := by
    cases u with
    | nil => exact absurd rfl hne
    | cons a t => rfl
  have hfr : falsyStr (some r) = false := by
    cases r with
    | nil => exact absurd rfl hre
    | cons a t => rfl
  have hmain : (joinStep s sid (some u) (some r)).2
      = (sid, Event.joined ⟨s.nextUuid, u, r, sid⟩ r
            (logOf s r ++ [mkWelcome s u])
            ((setAdd (roomMembers s r) sid).map
              (fun x => mapGet (mapSet s.users sid ⟨s.nextUuid, u, r, sid⟩) x)))
        :: ((roomMembers s r).filter (fun x => x ≠ sid)).map
             (fun x => (x, Event.userJoined ⟨s.nextUuid, u, r, sid⟩
                (mkWelcome s u))) := by
    rcases hms : mapGet s.messages r with _ | l <;>
      rcases hrs : mapGet s.rooms r with _ | ml <;>
        simp [joinStep, hfa, hfr, Nat.not_lt.mpr hlen, toExceptSelf,
          sioMembers, roomMembers, logOf, hms, hrs, hcons, mapGet_set_self,
          filter_setAdd]
  refine ⟨hmain, ?_, ?_⟩
  · intro x e hxe hj
    rw [hmain] at hxe
    rcases List.mem_cons.mp hxe with h | h
    · exact (Prod.mk.injEq _ _ _ _ ▸ h).1
    · obtain ⟨y, _, hy2⟩ := List.mem_map.mp h
      obtain ⟨-, he⟩ := Prod.mk.injEq _ _ _ _ ▸ hy2
      rw [← he] at hj
      simp [isJoinedEv] at hj
  · intro w m hmm
    rw [hmain] at hmm
    rcases List.mem_cons.mp hmm with h | h
    · obtain ⟨-, he⟩ := Prod.mk.injEq _ _ _ _ ▸ h
      simp at he
    · obtain ⟨y, hy, hy2⟩ := List.mem_map.mp h
      obtain ⟨hx, -⟩ := Prod.mk.injEq _ _ _ _ ▸ hy2
      have := (List.mem_filter.mp hy).2
      rw [hx] at this
      simp at this

/-- Witness for C7: `bob` joins room `"a"` where `alice` is present; `bob`
alone gets the snapshot, `alice` alone gets `userJoined`, and `bob` receives
no `userJoined` echo. -/
theorem C7_witness :
    (mapGet stateA.sio "a".toList = mapGet stateA.rooms "a".toList) ∧
    ((joinStep stateA 1 (some "bob".toList) (some "a".toList)).2
      = (1, Event.joined ⟨2, "bob".toList, "a".toList, 1⟩ "a".toList
            (logOf stateA "a".toList ++ [mkWelcome stateA "bob".toList])
            ((setAdd (roomMembers stateA "a".toList) 1).map
              (fun x => mapGet (mapSet stateA.users 1
                ⟨2, "bob".toList, "a".toList, 1⟩) x)))
        :: ((roomMembers stateA "a".toList).filter (fun x => x ≠ 1)).map
             (fun x => (x, Event.userJoined ⟨2, "bob".toList, "a".toList, 1⟩
                (mkWelcome stateA "bob".toList))) ∧
     ∀ w m, (1, Event.userJoined w m)
        ∉ (joinStep stateA 1 (some "bob".toList) (some "a".toList)).2) :=
  ⟨by decide,
   (C7_join_snapshot_and_userJoined stateA 1 "bob".toList "a".toList
      (by decide) (by decide) (by decide) (by decide)).1,
   (C7_join_snapshot_and_userJoined stateA 1 "bob".toList "a".toList
      (by decide) (by decide) (by decide) (by decide)).2.2⟩

/-- **C8 (counterexample to the claim as stated).**  A username of three
spaces passes validation (it is non-empty and short enough), so the join
succeeds and creates a session — but the stored display name is the
untrimmed `"   "`, whose trimmed form is empty: the session's name is not
the trimmed username and a whitespace-only username does produce a session.
-/
theorem C8_counterexample :
    (mapGet (joinStep initialState 0 (some "   ".toList)
        (some "a".toList)).1.users 0
      = some ⟨0, "   ".toList, "a".toList, 0⟩) ∧
    jsTrim "   ".toList = [] := by
  decide

/-- **C8 (amended).**  For every successful join the stored display name is
the supplied username verbatim — no trimming is applied — and it is
non-empty as supplied with length between 1 and 20; a whitespace-only
username therefore does produce a session. -/
theorem C8_amended_username_stored_verbatim (s : ServerState)
    (sid : SocketId) (u r : Str) (hne : u ≠ []) (hre : r ≠ [])
    (hlen : u.length ≤ 20) :
    mapGet (joinStep s sid (some u) (some r)).1.users sid
      = some ⟨s.nextUuid, u, r, sid⟩ ∧
    1 ≤ u.length ∧ u.length ≤ 20 := by
  have hfa : falsyStr (some u) = false := by
    cases u with
    | nil => exact absurd rfl hne
    | cons a t => rfl
  have hfr : falsyStr (some r) = false := by
    cases r with
    | nil => exact absurd rfl hre
    | cons a t => rfl
  refine ⟨?_, ?_, hlen⟩
  · simp [joinStep, hfa, hfr, Nat.not_lt.mpr hlen, mapGet_set_self]
  · cases u with
    | nil => exact absurd rfl hne
    | cons a t => simp

/-- Witness for C8 (amended): the whitespace-only username `"   "` is stored
verbatim in the created session. -/
theorem C8_witness :
    ("   ".toList ≠ ([] : Str) ∧ ("   ".toList : Str).length ≤ 20) ∧
    (mapGet (joinStep stateA 1 (some "   ".toList)
        (some "a".toList)).1.users 1
      = some ⟨2, "   ".toList, "a".toList, 1⟩ ∧
     1 ≤ ("   ".toList : Str).length ∧ ("   ".toList : Str).length ≤ 20) :=
  ⟨⟨by decide, by decide⟩,
   C8_amended_username_stored_verbatim stateA 1 "   ".toList "a".toList
     (by decide) (by decide) (by decide)⟩
